import Mathlib

/-
Verification of the core logic of wl-snippets.py, a GTK snippet picker:
the fuzzy matcher (filter_function), the filter view (the GtkTreeModelFilter
set up in setup_ui together with on_search_changed), the snippet loader
(load_snippets over os.walk), and the selection/dispatch path
(copy_selected_snippet with the wl-copy / xclip fallback chain,
provide_visual_feedback and the delayed destroy).

Python strings are modelled as Lean String (a list of characters); str.lower
is per-character ASCII lowering; subprocess spawning and the GTK status bar,
cursor and timers are modelled as explicit data recording the observable
effects of each handler.
-/

namespace WlSnippets

/-- Per-position test used by substring containment: the pattern `q` begins
the list `n`. -/
def startsWith : List Char → List Char → Bool
  | [], _ => true
  | _ :: _, [] => false
  | a :: as, b :: bs => a == b && startsWith as bs

/-- Python's `search_text in snippet_name` (wl-snippets.py line 143):
contiguous substring containment on character lists. -/
def substrIn (q : List Char) : List Char → Bool
  | [] => startsWith q []
  | n@(_ :: t) => startsWith q n || substrIn q t

/-- The while-loop of filter_function (wl-snippets.py lines 147-152): scan the
name left to right, consuming one query character at each match, never
backtracking; true iff the whole query is consumed. -/
def subseq : List Char → List Char → Bool
  | [], _ => true
  | _ :: _, [] => false
  | a :: as, b :: bs => if a == b then subseq as bs else subseq (a :: as) bs

/-- Python str.lower applied to a string (ASCII case mapping per character). -/
def strLower (s : String) : String := String.mk (s.data.map Char.toLower)

/-- filter_function (wl-snippets.py lines 133-152): lower both operands; an
empty query shows everything; otherwise direct substring match, then the
greedy subsequence scan. -/
def filter_function (search_text snippet_name : String) : Bool :=
  let st := strLower search_text
  if st.data.isEmpty then true
  else
    let sn := strLower snippet_name
    substrIn st.data sn.data || subseq st.data sn.data

/-- One row of the list store (setup_ui line 91): full path and the display
name (the path relative to the snippets root), the latter used for display
and matching. -/
structure Candidate where
  fullPath : String
  displayName : String
deriving DecidableEq

/-- The GtkTreeModelFilter built in setup_ui (lines 91-93): the visible rows
are exactly the rows of the list store whose display name passes
filter_function, in store order. -/
def visibleSet (q : String) (cs : List Candidate) : List Candidate :=
  cs.filter (fun c => filter_function q c.displayName)

/-- Result of one run of the on_search_changed handler: the refiltered
visible rows, the tree-view cursor afterwards (an index into the visible
rows; an empty filter model has no row for a cursor to rest on, hence none),
and the status message pushed by the handler, if any. -/
structure SearchUpdate where
  visible : List Candidate
  cursor : Option Nat
  status : Option String
deriving DecidableEq

/-- on_search_changed (wl-snippets.py lines 154-169): refilter; when the
filtered model is non-empty set the cursor to the first row and, for a
non-empty query, push the match count; when it is empty push the no-match
message for a non-empty query. An empty query pushes no status. -/
def on_search_changed (cs : List Candidate) (q : String) : SearchUpdate :=
  let vis := visibleSet q cs
  if 0 < vis.length then
    { visible := vis, cursor := some 0,
      status := if q = "" then none
        else some ("Found " ++ toString vis.length ++ " matching snippets") }
  else
    { visible := vis, cursor := none,
      status := if q = "" then none else some "No matching snippets found" }

/-- A filesystem entry as enumerated by os.walk: the entries of a directory
appear in the order the operating system lists them, which need not be
sorted. -/
inductive FSEntry where
  | file (name : String)
  | dir (name : String) (entries : List FSEntry)

/-- Names of the regular files among a directory's entries, in listing order
(the `files` component os.walk yields for that directory). -/
def fileNames : List FSEntry → List String
  | [] => []
  | .file n :: rest => n :: fileNames rest
  | .dir _ _ :: rest => fileNames rest

/-- Insertion into a sorted list: the elementary step of Python sorted(). -/
def insertSorted (s : String) : List String → List String
  | [] => [s]
  | t :: ts => if s ≤ t then s :: t :: ts else t :: insertSorted s ts

/-- Python sorted() on strings (ascending lexicographic order on code
points; equal strings are identical, so stability is immaterial). -/
def sortStrings : List String → List String
  | [] => []
  | s :: ss => insertSorted s (sortStrings ss)

mutual
/-- The loop body of load_snippets (lines 123-128) at the os.walk entry of
one directory with relative path `path` and entries `es`: the relative paths
of the directory's files in sorted order, then the files collected from its
subdirectories, depth-first, subdirectories in listing order (os.walk does
not sort dirnames and the code ignores that component). -/
def load_list (path : String) (es : List FSEntry) : List String :=
  (sortStrings (fileNames es)).map (fun f => path ++ f) ++ subdirsLoad path es
termination_by (sizeOf es, 1)

/-- Recursive descent of os.walk into the subdirectories of a directory, in
listing order. -/
def subdirsLoad (path : String) : List FSEntry → List String
  | [] => []
  | .file _ :: rest => subdirsLoad path rest
  | .dir n sub :: rest => load_list (path ++ n ++ "/") sub ++ subdirsLoad path rest
termination_by es => (sizeOf es, 0)
end

/-- load_snippets (wl-snippets.py lines 118-131), data content: the display
names (paths relative to the snippets root) appended to the list store, in
append order, and the status message counting them. -/
def load_snippets (es : List FSEntry) : List String × String :=
  let names := load_list "" es
  (names, "Loaded " ++ toString names.length ++ " snippets")

/-- Reference enumeration of the reachable regular files, in raw listing
order with no per-directory regrouping, used to state that load_snippets
emits exactly the reachable files, each exactly once and no directories. -/
def specFiles (path : String) : List FSEntry → List String
  | [] => []
  | .file n :: rest => (path ++ n) :: specFiles path rest
  | .dir n sub :: rest => specFiles (path ++ n ++ "/") sub ++ specFiles path rest
termination_by es => sizeOf es

/-- Outcome of attempting to spawn one clipboard helper: the binary is
absent (Popen raises FileNotFoundError), or the process launches and the
write it is handed either goes through or fails; the Python code never
inspects the write outcome or the exit status. -/
inductive SpawnResult where
  | notFound
  | launched (writeOk : Bool)
deriving DecidableEq

/-- Environment for one dispatch: how each of the two clipboard helpers
would behave if spawned. -/
structure Providers where
  wlCopy : SpawnResult
  xclip : SpawnResult
deriving DecidableEq

/-- Result of the clipboard section of copy_selected_snippet (lines
248-263): whether copy_success was set, which helpers were spawned (in
order), and the status messages pushed by this section. -/
structure DispatchResult where
  success : Bool
  tried : List String
  statusMsgs : List String
deriving DecidableEq

/-- The nested try/except chain of copy_selected_snippet lines 252-263:
spawn wl-copy; only a FileNotFoundError falls through to xclip; a launched
process sets copy_success regardless of its write outcome; when both
binaries are absent an error status is pushed and copy_success stays
False. -/
def dispatchClipboard (p : Providers) : DispatchResult :=
  match p.wlCopy with
  | .launched _ => { success := true, tried := ["wl-copy"], statusMsgs := [] }
  | .notFound =>
    match p.xclip with
    | .launched _ =>
      { success := true, tried := ["wl-copy", "xclip"], statusMsgs := [] }
    | .notFound =>
      { success := false, tried := ["wl-copy", "xclip"],
        statusMsgs := ["Error: Neither wl-copy nor xclip is available"] }

/-- The tree selection at confirm time: either no row is selected (treeiter
is None) or the selected row carries the snippet's full path and display
name. -/
inductive Selection where
  | noRow
  | row (path name : String)
deriving DecidableEq

/-- Observable effects of one call to copy_selected_snippet: status messages
pushed in order, file paths opened for reading, clipboard helpers spawned,
the duration in milliseconds of the visual feedback pulse if one was
triggered, and the delays in milliseconds of the scheduled delayed-destroy
timers. -/
structure CopyOutcome where
  statuses : List String
  reads : List String
  tried : List String
  feedbackPulse : Option Nat
  closes : List Nat
deriving DecidableEq

/-- copy_selected_snippet (wl-snippets.py lines 238-278). The filesystem
maps a path to the file's content or to the message of the exception raised
by open/read. With no selected row the handler returns immediately.
Otherwise it reads the file (a read failure is caught by the outer except:
error status, then a 600ms delayed destroy), runs the clipboard chain, on
copy_success pushes the copied message and triggers the 300ms feedback pulse
(a row is selected, so provide_visual_feedback does not return early), and
in every such path schedules exactly one 600ms delayed destroy. -/
def copy_selected_snippet (sel : Selection) (fs : String → Except String String)
    (p : Providers) : CopyOutcome :=
  match sel with
  | .noRow =>
    { statuses := [], reads := [], tried := [], feedbackPulse := none, closes := [] }
  | .row path name =>
    match fs path with
    | .error e =>
      { statuses := ["Error: " ++ e], reads := [path], tried := [],
        feedbackPulse := none, closes := [600] }
    | .ok _ =>
      let d := dispatchClipboard p
      if d.success then
        { statuses := d.statusMsgs ++ ["Copied: " ++ name], reads := [path],
          tried := d.tried, feedbackPulse := some 300, closes := [600] }
      else
        { statuses := d.statusMsgs, reads := [path], tried := d.tried,
          feedbackPulse := none, closes := [600] }

theorem startsWith_iff : ∀ q n : List Char, startsWith q n = true ↔ ∃ r, n = q ++ r
  | [], n => by simp [startsWith]
  | a :: as, [] => by simp [startsWith]
  | a :: as, b :: bs => by
    simp only [startsWith, Bool.and_eq_true, beq_iff_eq, startsWith_iff as bs,
      List.cons_append, List.cons.injEq]
    constructor
    · rintro ⟨rfl, r, rfl⟩
      exact ⟨r, rfl, rfl⟩
    · rintro ⟨r, rfl, rfl⟩
      exact ⟨rfl, r, rfl⟩

theorem substrIn_iff : ∀ q n : List Char, substrIn q n = true ↔ ∃ l r, n = l ++ q ++ r
  | q, [] => by
    simp only [substrIn, startsWith_iff]
    constructor
    · rintro ⟨r, hr⟩
      exact ⟨[], r, by simpa using hr⟩
    · rintro ⟨l, r, h⟩
      rcases List.append_eq_nil.mp (List.append_eq_nil.mp h.symm).1 with ⟨h1, h2⟩
      exact ⟨[], by simp [← h2]⟩
  | q, c :: t => by
    simp only [substrIn, Bool.or_eq_true, startsWith_iff, substrIn_iff q t]
    constructor
    · rintro (⟨r, hr⟩ | ⟨l, r, rfl⟩)
      · exact ⟨[], r, by simpa using hr⟩
      · exact ⟨c :: l, r, by simp⟩
    · rintro ⟨l, r, h⟩
      cases l with
      | nil => exact Or.inl ⟨r, by simpa using h⟩
      | cons c' l' =>
        rcases List.cons.injEq .. ▸ h with ⟨rfl, h2⟩
        exact Or.inr ⟨l', r, by simpa using h2⟩

theorem subseq_iff : ∀ q n : List Char, subseq q n = true ↔ List.Sublist q n
  | [], n => by simp [subseq]
  | _ :: _, [] => by simp [subseq]
  | a :: as, b :: bs => by
    by_cases hab : a = b
    · subst hab
      simp [subseq, subseq_iff as bs, List.cons_sublist_cons]
    · have hb : (a == b) = false := by simp [hab]
      simp only [subseq, hb, Bool.false_eq_true, if_false, subseq_iff (a :: as) bs]
      constructor
      · exact fun h => h.cons b
      · intro h
        cases h with
        | cons _ h => exact h
        | cons₂ _ h => exact absurd rfl hab

theorem strLower_data_nil_iff (q : String) : (strLower q).data.isEmpty = true ↔ q = "" := by
  constructor
  · intro h
    cases q with
    | mk d =>
      have hd : d = [] := by
        simpa [strLower, List.isEmpty_iff, List.map_eq_nil_iff] using h
      subst hd
      rfl
  · rintro rfl
    rfl

/-- C1: filter_function returns true exactly when the query is empty, or the
lower-cased query occurs as a contiguous substring of the lower-cased name,
or the lower-cased query is a (not necessarily contiguous) subsequence of the
lower-cased name — the property decided by the single left-to-right scan.
The predicate is a pure Bool-valued function and returns no score. -/
theorem c1_fuzzy_match_iff (q n : String) :
    filter_function q n = true ↔
      q = "" ∨ (∃ l r, (strLower n).data = l ++ (strLower q).data ++ r)
        ∨ List.Sublist (strLower q).data (strLower n).data := by
  unfold filter_function
  by_cases hq : q = ""
  · subst hq
    simp [strLower]
  · have hne : (strLower q).data.isEmpty = false := by
      rcases h : (strLower q).data.isEmpty with _ | _
      · rfl
      · exact absurd ((strLower_data_nil_iff q).mp h) hq
    simp only [hne, Bool.false_eq_true, if_false, Bool.or_eq_true, substrIn_iff,
      subseq_iff, hq, false_or]

theorem filter_function_empty (n : String) : filter_function "" n = true := rfl

theorem on_search_changed_visible (cs : List Candidate) (q : String) :
    (on_search_changed cs q).visible = visibleSet q cs := by
  unfold on_search_changed
  by_cases h : 0 < (visibleSet q cs).length <;> simp [h]

theorem on_search_changed_cursor (cs : List Candidate) (q : String) :
    (on_search_changed cs q).cursor =
      if 0 < (visibleSet q cs).length then some 0 else none := by
  unfold on_search_changed
  by_cases h : 0 < (visibleSet q cs).length <;> simp [h]

theorem on_search_changed_status (cs : List Candidate) (q : String) :
    (on_search_changed cs q).status =
      if q = "" then none
      else if 0 < (visibleSet q cs).length then
        some ("Found " ++ toString (visibleSet q cs).length ++ " matching snippets")
      else some "No matching snippets found" := by
  unfold on_search_changed
  by_cases hq : q = ""
  · subst hq
    by_cases h : 0 < (visibleSet "" cs).length <;> simp [h]
  · by_cases h : 0 < (visibleSet q cs).length <;> simp [h, hq]

/-- C2: after a query change the visible set is exactly the candidates whose
display name matches the query, in candidate-set order: filtering is a
sublist of the original order (no reordering or re-ranking), the visible set
of any query is a sublist of the visible set of the empty query, the empty
query shows everything, and re-filtering an already-filtered set changes
nothing. -/
theorem c2_visible_set_invariant (q : String) (cs : List Candidate) :
    List.Sublist (visibleSet q cs) cs
    ∧ visibleSet "" cs = cs
    ∧ List.Sublist (visibleSet q cs) (visibleSet "" cs)
    ∧ (∀ c, c ∈ visibleSet q cs ↔ c ∈ cs ∧ filter_function q c.displayName = true)
    ∧ visibleSet q (visibleSet q cs) = visibleSet q cs := by
  have hempty : visibleSet "" cs = cs := List.filter_eq_self.mpr fun c _ => rfl
  refine ⟨List.filter_sublist cs, hempty, ?_, fun c => List.mem_filter, ?_⟩
  · rw [hempty]
    exact List.filter_sublist cs
  · exact List.filter_eq_self.mpr fun c hc => (List.mem_filter.mp hc).2

/-- C3: after a query change the cursor is reset to the first element of the
new visible set when that set is non-empty and is none when it is empty; a
cursor value always indexes a valid element of the visible set. -/
theorem c3_cursor_reset (cs : List Candidate) (q : String) :
    ((on_search_changed cs q).visible ≠ [] → (on_search_changed cs q).cursor = some 0)
    ∧ ((on_search_changed cs q).visible = [] → (on_search_changed cs q).cursor = none)
    ∧ ∀ i, (on_search_changed cs q).cursor = some i →
        i < (on_search_changed cs q).visible.length := by
  rw [on_search_changed_visible, on_search_changed_cursor]
  by_cases h : 0 < (visibleSet q cs).length
  · rw [if_pos h]
    refine ⟨fun _ => rfl, fun he => ?_, fun i hi => ?_⟩
    · rw [he] at h
      exact absurd h (by simp)
    · injection hi with hi2
      rw [← hi2]
      exact h
  · rw [if_neg h]
    refine ⟨fun hne => ?_, fun _ => rfl, fun i hi => by cases hi⟩
    exact absurd (List.length_eq_zero.mp (Nat.eq_zero_of_not_pos h)) hne

theorem c3_cursor_reset_witness :
    (on_search_changed [⟨"/s/a.txt", "a.txt"⟩] "").cursor = some 0 :=
  (c3_cursor_reset [⟨"/s/a.txt", "a.txt"⟩] "").1 (by decide)

/-- C8 counterexample: with one candidate loaded, a query change to the
empty string pushes no status message at all — on_search_changed only
pushes for a non-empty query — refuting the claim that every query change
reports the visible-set size, with a dedicated empty-query wording
reporting the total loaded. -/
theorem c8_counterexample :
    (on_search_changed [⟨"/s/a.txt", "a.txt"⟩] "").status = none
    ∧ (on_search_changed [⟨"/s/a.txt", "a.txt"⟩] "").visible.length = 1 := by decide

/-- C8 amended: a query change pushes a status message only when the query
is non-empty — the match count for one or more results, the no-match
message for zero results; an empty-query change pushes nothing, the total
count being reported only by the load-time message of load_snippets. -/
theorem c8_amended (cs : List Candidate) (q : String) (es : List FSEntry) :
    (q = "" → (on_search_changed cs q).status = none)
    ∧ (q ≠ "" → 0 < (on_search_changed cs q).visible.length →
        (on_search_changed cs q).status =
          some ("Found " ++ toString (on_search_changed cs q).visible.length
            ++ " matching snippets"))
    ∧ (q ≠ "" → (on_search_changed cs q).visible.length = 0 →
        (on_search_changed cs q).status = some "No matching snippets found")
    ∧ (load_snippets es).2 =
        "Loaded " ++ toString (load_snippets es).1.length ++ " snippets" := by
  rw [on_search_changed_status, on_search_changed_visible]
  refine ⟨fun hq => by rw [if_pos hq], fun hq hpos => ?_, fun hq hzero => ?_, rfl⟩
  · rw [if_neg hq, if_pos hpos]
  · rw [if_neg hq, if_neg (by rw [hzero]; exact Nat.lt_irrefl 0)]

theorem c8_amended_witness :
    (on_search_changed [⟨"/s/a.txt", "a.txt"⟩] "a").status
      = some "Found 1 matching snippets" := by
  have h := (c8_amended [⟨"/s/a.txt", "a.txt"⟩] "a" []).2.1 (by decide) (by decide)
  rw [h]
  decide

theorem insertSorted_perm (s : String) (l : List String) :
    List.Perm (insertSorted s l) (s :: l) := by
  induction l with
  | nil => exact List.Perm.refl _
  | cons t ts ih =>
    by_cases h : s ≤ t
    · simp [insertSorted, h]
    · simp only [insertSorted, if_neg h]
      exact (ih.cons t).trans (List.Perm.swap s t ts)

theorem sortStrings_perm (l : List String) : List.Perm (sortStrings l) l := by
  induction l with
  | nil => exact List.Perm.refl _
  | cons s ss ih => exact (insertSorted_perm s (sortStrings ss)).trans (ih.cons s)

theorem load_list_eq (path : String) (es : List FSEntry) :
    load_list path es =
      (sortStrings (fileNames es)).map (fun f => path ++ f) ++ subdirsLoad path es := by
  simp [load_list]

theorem subdirsLoad_nil (path : String) : subdirsLoad path [] = [] := by
  simp [subdirsLoad]

theorem subdirsLoad_file (path n : String) (rest : List FSEntry) :
    subdirsLoad path (FSEntry.file n :: rest) = subdirsLoad path rest := by
  simp [subdirsLoad]

theorem subdirsLoad_dir (path n : String) (sub rest : List FSEntry) :
    subdirsLoad path (FSEntry.dir n sub :: rest) =
      load_list (path ++ n ++ "/") sub ++ subdirsLoad path rest := by
  simp [subdirsLoad]

theorem specFiles_nil (path : String) : specFiles path [] = [] := by
  simp [specFiles]

theorem specFiles_file (path n : String) (rest : List FSEntry) :
    specFiles path (FSEntry.file n :: rest) = (path ++ n) :: specFiles path rest := by
  simp [specFiles]

theorem specFiles_dir (path n : String) (sub rest : List FSEntry) :
    specFiles path (FSEntry.dir n sub :: rest) =
      specFiles (path ++ n ++ "/") sub ++ specFiles path rest := by
  simp [specFiles]

theorem load_aux : ∀ (path : String) (es : List FSEntry),
    List.Perm ((fileNames es).map (fun f => path ++ f) ++ subdirsLoad path es)
      (specFiles path es)
  | _, [] => by
    rw [subdirsLoad_nil, specFiles_nil]
    exact List.Perm.refl _
  | path, .file n :: rest => by
    rw [subdirsLoad_file, specFiles_file]
    exact (load_aux path rest).cons (path ++ n)
  | path, .dir n sub :: rest => by
    rw [subdirsLoad_dir, specFiles_dir]
    have hsub : List.Perm (load_list (path ++ n ++ "/") sub)
        (specFiles (path ++ n ++ "/") sub) := by
      rw [load_list_eq]
      exact (((sortStrings_perm (fileNames sub)).map
        (fun f => path ++ n ++ "/" ++ f)).append_right _).trans
        (load_aux (path ++ n ++ "/") sub)
    have h1 : List.Perm
        ((fileNames rest).map (fun f => path ++ f)
          ++ (load_list (path ++ n ++ "/") sub ++ subdirsLoad path rest))
        (load_list (path ++ n ++ "/") sub
          ++ ((fileNames rest).map (fun f => path ++ f) ++ subdirsLoad path rest)) := by
      rw [← List.append_assoc, ← List.append_assoc]
      exact List.perm_append_comm.append_right _
    exact h1.trans (List.Perm.append hsub (load_aux path rest))
  termination_by _ es => sizeOf es

theorem load_list_perm (path : String) (es : List FSEntry) :
    List.Perm (load_list path es) (specFiles path es) := by
  rw [load_list_eq]
  exact (((sortStrings_perm (fileNames es)).map (fun f => path ++ f)).append_right _).trans
    (load_aux path es)

/-- C4 counterexample: a snippets root containing exactly the files a/x.txt,
b/y.txt, b/z.txt, whose directory b is listed by the operating system before
a (os.walk yields dirnames in listing order and load_snippets does not sort
that component), loads the three candidates as b/y.txt, b/z.txt, a/x.txt —
not the order a/x.txt, b/y.txt, b/z.txt the claim asserts for any root with
these files. -/
theorem c4_counterexample :
    (load_snippets [FSEntry.dir "b" [FSEntry.file "y.txt", FSEntry.file "z.txt"],
        FSEntry.dir "a" [FSEntry.file "x.txt"]]).1
      = ["b/y.txt", "b/z.txt", "a/x.txt"]
    ∧ (load_snippets [FSEntry.dir "b" [FSEntry.file "y.txt", FSEntry.file "z.txt"],
        FSEntry.dir "a" [FSEntry.file "x.txt"]]).1
      ≠ ["a/x.txt", "b/y.txt", "b/z.txt"] := by
  have h : (load_snippets [FSEntry.dir "b" [FSEntry.file "y.txt", FSEntry.file "z.txt"],
      FSEntry.dir "a" [FSEntry.file "x.txt"]]).1
      = ["b/y.txt", "b/z.txt", "a/x.txt"] := by
    simp [load_snippets, load_list, subdirsLoad, sortStrings, insertSorted, fileNames]
    decide
  refine ⟨h, ?_⟩
  rw [h]
  decide

/-- C4 amended: load includes every regular file reachable from the root
exactly once and no directories; within each directory the files are
emitted in lexicographic order before the subdirectory contents, and
subdirectories are descended depth-first in the order the operating system
lists them (os.walk order, not sorted), so the cross-directory order tracks
the listing order; when the root lists directory a before b, the files
a/x.txt, b/y.txt, b/z.txt load in exactly that order. -/
theorem c4_amended :
    (∀ (path : String) (es : List FSEntry),
      List.Perm (load_list path es) (specFiles path es))
    ∧ (load_snippets [FSEntry.dir "a" [FSEntry.file "x.txt"],
        FSEntry.dir "b" [FSEntry.file "y.txt", FSEntry.file "z.txt"]]).1
      = ["a/x.txt", "b/y.txt", "b/z.txt"] := by
  refine ⟨load_list_perm, ?_⟩
  simp [load_snippets, load_list, subdirsLoad, sortStrings, insertSorted, fileNames]
  decide

/-- C5 counterexample: with the wl-copy binary present but its write
failing, and xclip present and healthy, the dispatcher spawns only wl-copy
and records the copy as successful; it does not proceed to the fallback
provider, refuting the claim that a write-time failure of a present
provider makes the dispatcher move on to the next provider. -/
theorem c5_counterexample :
    (dispatchClipboard ⟨SpawnResult.launched false, SpawnResult.launched true⟩).tried
      = ["wl-copy"]
    ∧ (dispatchClipboard ⟨SpawnResult.launched false,
        SpawnResult.launched true⟩).success = true := by decide

/-- C5 amended: the dispatcher tries wl-copy first and falls through to
xclip only when the wl-copy binary is absent (FileNotFoundError); a
provider whose process launches is recorded as success regardless of its
write outcome; the no-sink error is reported exactly when both binaries are
absent, which is exactly when the dispatch fails. -/
theorem c5_amended (p : Providers) :
    ((dispatchClipboard p).success = false ↔
      p.wlCopy = SpawnResult.notFound ∧ p.xclip = SpawnResult.notFound)
    ∧ ("xclip" ∈ (dispatchClipboard p).tried ↔ p.wlCopy = SpawnResult.notFound)
    ∧ (dispatchClipboard p).tried.head? = some "wl-copy"
    ∧ ((dispatchClipboard p).statusMsgs ≠ [] ↔ (dispatchClipboard p).success = false) := by
  rcases p with ⟨wc, xc⟩
  cases wc <;> cases xc <;> simp [dispatchClipboard]

theorem c5_amended_witness :
    (dispatchClipboard ⟨SpawnResult.notFound, SpawnResult.notFound⟩).success = false :=
  (c5_amended ⟨SpawnResult.notFound, SpawnResult.notFound⟩).1.mpr ⟨rfl, rfl⟩

theorem dispatchClipboard_ok (p : Providers)
    (h : (dispatchClipboard p).success = true) :
    (dispatchClipboard p).statusMsgs = [] := by
  rcases p with ⟨wc, xc⟩
  cases wc <;> cases xc <;> simp_all [dispatchClipboard]

theorem dispatchClipboard_failed (p : Providers)
    (h : (dispatchClipboard p).success = false) :
    (dispatchClipboard p).statusMsgs = ["Error: Neither wl-copy nor xclip is available"] := by
  rcases p with ⟨wc, xc⟩
  cases wc <;> cases xc <;> simp_all [dispatchClipboard]

/-- C6: for every confirmed selection (a row is selected), exactly one
delayed close is scheduled, 600ms from the copy action, on every path —
read success with dispatch success, read failure, and total dispatch
failure — and every such path pushes at least one status message, so no
failure is silent and the session is never left without a scheduled
close. -/
theorem c6_close_scheduled (path name : String) (fs : String → Except String String)
    (p : Providers) :
    (copy_selected_snippet (Selection.row path name) fs p).closes = [600]
    ∧ (copy_selected_snippet (Selection.row path name) fs p).statuses ≠ [] := by
  cases hfs : fs path with
  | error e => simp [copy_selected_snippet, hfs]
  | ok c =>
    by_cases hd : (dispatchClipboard p).success = true
    · simp [copy_selected_snippet, hfs, hd]
    · have hd' : (dispatchClipboard p).success = false := by
        simpa using hd
      simp [copy_selected_snippet, hfs, hd', dispatchClipboard_failed p hd']

theorem c6_close_scheduled_witness :
    (copy_selected_snippet (Selection.row "/s/a.txt" "a.txt")
      (fun _ => Except.ok "hello") ⟨SpawnResult.launched true, SpawnResult.launched true⟩).closes
      = [600] :=
  (c6_close_scheduled "/s/a.txt" "a.txt" (fun _ => Except.ok "hello")
    ⟨SpawnResult.launched true, SpawnResult.launched true⟩).1

/-- C7: when the selected file reads successfully, the 300ms feedback pulse
is emitted exactly when the clipboard dispatch succeeded; on success the
copied message is pushed, while on total dispatch failure the failure is
reported, no pulse is emitted, and the 600ms close is still scheduled. -/
theorem c7_feedback_iff_success (path name content : String)
    (fs : String → Except String String) (p : Providers)
    (hfs : fs path = Except.ok content) :
    ((copy_selected_snippet (Selection.row path name) fs p).feedbackPulse = some 300 ↔
      (dispatchClipboard p).success = true)
    ∧ ((dispatchClipboard p).success = true →
        "Copied: " ++ name ∈ (copy_selected_snippet (Selection.row path name) fs p).statuses)
    ∧ ((dispatchClipboard p).success = false →
        (copy_selected_snippet (Selection.row path name) fs p).feedbackPulse = none
        ∧ (copy_selected_snippet (Selection.row path name) fs p).statuses
            = ["Error: Neither wl-copy nor xclip is available"]
        ∧ (copy_selected_snippet (Selection.row path name) fs p).closes = [600]) := by
  by_cases hd : (dispatchClipboard p).success = true
  · simp [copy_selected_snippet, hfs, hd, dispatchClipboard_ok p hd]
  · have hd' : (dispatchClipboard p).success = false := by
      simpa using hd
    simp [copy_selected_snippet, hfs, hd', dispatchClipboard_failed p hd']

theorem c7_feedback_iff_success_witness :
    (copy_selected_snippet (Selection.row "/s/a.txt" "a.txt") (fun _ => Except.ok "hi")
      ⟨SpawnResult.notFound, SpawnResult.notFound⟩).feedbackPulse = none := by
  have h := c7_feedback_iff_success "/s/a.txt" "a.txt" "hi" (fun _ => Except.ok "hi")
    ⟨SpawnResult.notFound, SpawnResult.notFound⟩ rfl
  exact (h.2.2 rfl).1

/-- C9: with no selected row (in particular when the visible set is empty),
a confirm is a no-op: no file is read, no clipboard helper is spawned, no
status is pushed, no feedback pulse is emitted, and no close is scheduled —
the session stays in its browsing state. -/
theorem c9_confirm_noop (fs : String → Except String String) (p : Providers) :
    copy_selected_snippet Selection.noRow fs p =
      { statuses := [], reads := [], tried := [], feedbackPulse := none, closes := [] } := rfl

/-- C10: whenever the wl-copy spawn does not raise FileNotFoundError, the
copy is unconditionally recorded as successful — the copied status and the
300ms feedback pulse are produced — for either write outcome, without
inspecting the process's exit status; the same holds for xclip when wl-copy
is absent. -/
theorem c10_success_ignores_write (path name content : String)
    (fs : String → Except String String) (p : Providers) (b : Bool)
    (hfs : fs path = Except.ok content) :
    (p.wlCopy = SpawnResult.launched b →
      (copy_selected_snippet (Selection.row path name) fs p).statuses
          = ["Copied: " ++ name]
      ∧ (copy_selected_snippet (Selection.row path name) fs p).feedbackPulse = some 300
      ∧ (copy_selected_snippet (Selection.row path name) fs p).tried = ["wl-copy"])
    ∧ (p.wlCopy = SpawnResult.notFound → p.xclip = SpawnResult.launched b →
      (copy_selected_snippet (Selection.row path name) fs p).statuses
          = ["Copied: " ++ name]
      ∧ (copy_selected_snippet (Selection.row path name) fs p).feedbackPulse = some 300
      ∧ (copy_selected_snippet (Selection.row path name) fs p).tried
          = ["wl-copy", "xclip"]) := by
  constructor
  · intro hw
    simp [copy_selected_snippet, hfs, dispatchClipboard, hw]
  · intro hw hx
    simp [copy_selected_snippet, hfs, dispatchClipboard, hw, hx]

theorem c10_success_ignores_write_witness :
    (copy_selected_snippet (Selection.row "/s/a.txt" "a.txt") (fun _ => Except.ok "hi")
      ⟨SpawnResult.launched false, SpawnResult.notFound⟩).statuses
      = ["Copied: " ++ "a.txt"] := by
  have h := c10_success_ignores_write "/s/a.txt" "a.txt" "hi" (fun _ => Except.ok "hi")
    ⟨SpawnResult.launched false, SpawnResult.notFound⟩ false rfl
  exact (h.1 rfl).1

end WlSnippets
